import Mathlib

/-!
Verification of the dependency-health scanning system of this repository.

The repository contains two layers:

* a Next.js API gateway (`backend/src/app/api/...`), whose dependency-health
  routes are embedded below from their TypeScript source; and
* the vulnerability scanning engine (a Python FastAPI service) which is
  documented in the repository (`app/dependency-health/*.md`) but whose
  source is not part of the repository tree; its components are therefore
  modelled from the design specification, as indicated on each definition.

Machine integers do not occur in the scanning logic; counts are `Nat` and
CVSS scores are modelled as rationals (they are decimal fractions such as
7.5 in the documented data).
-/

namespace DepHealth

/-! ## Data model -/

/-- Ecosystem of a dependency: `python` (requirements.txt) or `node`
(package.json), as in the gateway's `DependencyResult.dependency.type`. -/
inductive Ecosystem where
  | python
  | node
deriving DecidableEq, Repr

/-- Constraint operators. Modelled from the spec: `versionConstraint` is an
ordered sequence of pairs with operator in {==, >=, <=, ~=, >, <, ^, ~}. -/
inductive ConstraintOp where
  | eq        -- ==
  | ge        -- >=
  | le        -- <=
  | compat    -- ~=
  | gt        -- >
  | lt        -- <
  | caret     -- ^
  | tilde     -- ~
deriving DecidableEq, Repr

/-- One (operator, version) constraint pair. -/
structure VersionConstraint where
  op : ConstraintOp
  version : String
deriving DecidableEq, Repr

/-- Original text and line number kept for diagnostics. -/
structure SourceLine where
  text : String
  lineNumber : Nat
deriving DecidableEq, Repr

/-- Modelled from the spec: `DependencyRecord`, one declared dependency
produced by the ManifestParser (the parser itself is not under the
repository's source tree). -/
structure DependencyRecord where
  name : String
  ecosystem : Ecosystem
  versionConstraint : List VersionConstraint
  sourceLine : SourceLine
deriving DecidableEq, Repr

/-- Severity bucket of a single vulnerability, as in the gateway's
`Vulnerability.severity` union type. -/
inductive Severity where
  | CRITICAL
  | HIGH
  | MEDIUM
  | LOW
  | UNKNOWN
deriving DecidableEq, Repr

/-- Risk level of a dependency: a severity bucket or NONE (queried
successfully and found nothing). -/
inductive RiskLevel where
  | CRITICAL
  | HIGH
  | MEDIUM
  | LOW
  | UNKNOWN
  | NONE
deriving DecidableEq, Repr

/-- Numeric rank of a risk level under the ordering
CRITICAL > HIGH > MEDIUM > LOW > UNKNOWN > NONE. -/
def RiskLevel.rank : RiskLevel → Nat
  | .CRITICAL => 5
  | .HIGH => 4
  | .MEDIUM => 3
  | .LOW => 2
  | .UNKNOWN => 1
  | .NONE => 0

/-- The risk level corresponding to a vulnerability severity bucket. -/
def Severity.toRisk : Severity → RiskLevel
  | .CRITICAL => .CRITICAL
  | .HIGH => .HIGH
  | .MEDIUM => .MEDIUM
  | .LOW => .LOW
  | .UNKNOWN => .UNKNOWN

/-- Maximum of two risk levels under the ordering above. -/
def RiskLevel.max (a b : RiskLevel) : RiskLevel :=
  if a.rank < b.rank then b else a

/-- Modelled from the spec: one matched `Vulnerability` finding as returned
by the external source, before classification.  `severity` is the raw
severity string (absent when the source supplies none); `cvssScore` is the
optional 0.0–10.0 score, modelled as a rational. -/
structure Vulnerability where
  cveId : String
  description : String
  severity : Option String
  cvssScore : Option ℚ
  publishedDate : String
  lastModifiedDate : String
  affectedVersions : List String
  fixedVersions : List String
deriving DecidableEq, Repr

/-! ## RiskClassifier (modelled from the spec §4.5) -/

/-- Modelled from the spec: severity bucket derived from a CVSS score when
the severity string is absent: ≥9.0→CRITICAL, ≥7.0→HIGH, ≥4.0→MEDIUM,
>0→LOW, else (including an absent score) UNKNOWN. -/
def cvssToSeverity : Option ℚ → Severity
  | none => .UNKNOWN
  | some s =>
    if 9 ≤ s then .CRITICAL
    else if 7 ≤ s then .HIGH
    else if 4 ≤ s then .MEDIUM
    else if 0 < s then .LOW
    else .UNKNOWN

/-- Parse a raw severity string into a bucket; anything unrecognized is
left to the caller (spec §4.3: unparsable severity degrades to UNKNOWN). -/
def parseSeverity (s : String) : Option Severity :=
  if s = "CRITICAL" then some .CRITICAL
  else if s = "HIGH" then some .HIGH
  else if s = "MEDIUM" then some .MEDIUM
  else if s = "LOW" then some .LOW
  else none

/-- Modelled from the spec: the effective severity bucket of a
vulnerability — the parsed severity string when present and recognized,
UNKNOWN when present but unparsable, and the CVSS-derived bucket when the
severity string is absent. -/
def effectiveSeverity (v : Vulnerability) : Severity :=
  match v.severity with
  | some s => (parseSeverity s).getD .UNKNOWN
  | none => cvssToSeverity v.cvssScore

/-- Modelled from the spec: per-dependency risk level, the maximum severity
among the vulnerabilities (NONE when the list is empty). -/
def classify (vulns : List Vulnerability) : RiskLevel :=
  vulns.foldl (fun acc v => acc.max (effectiveSeverity v).toRisk) .NONE

/-! ## VulnerabilitySourceClient result shaping (modelled from the spec §4.3) -/

/-- Modelled from the spec: deduplicate a vulnerability list by `cveId`,
keeping the first occurrence of each id. -/
def dedupByCve : List Vulnerability → List Vulnerability :=
  go []
where
  go (seen : List String) : List Vulnerability → List Vulnerability
    | [] => []
    | v :: vs =>
      if v.cveId ∈ seen then go seen vs
      else v :: go (v.cveId :: seen) vs

/-- Sort key order for vulnerabilities: by severity (CRITICAL first) then
by `cveId` (spec §4.5 / data model). -/
def vulnBefore (a b : Vulnerability) : Bool :=
  let ra := (effectiveSeverity a).toRisk.rank
  let rb := (effectiveSeverity b).toRisk.rank
  rb < ra || (ra == rb && a.cveId ≤ b.cveId)

/-- Insert into a list sorted by `vulnBefore`. -/
def insertVuln (v : Vulnerability) : List Vulnerability → List Vulnerability
  | [] => [v]
  | w :: ws => if vulnBefore v w then v :: w :: ws else w :: insertVuln v ws

/-- Insertion sort by `vulnBefore`. -/
def sortVulns : List Vulnerability → List Vulnerability
  | [] => []
  | v :: vs => insertVuln v (sortVulns vs)

/-! ## Query outcomes and DependencyResult (modelled from the spec) -/

/-- Modelled from the spec §7: per-dependency failure taxonomy of the
VulnerabilitySourceClient / orchestrator (the engine source is not under
the repository's source tree). -/
inductive QueryError where
  | SourceUnavailable
  | SourceRateLimited
  | SourceMalformedResponse
  | RateLimitTimeout
  | ScanTimedOut
deriving DecidableEq, Repr

/-- Human-readable message recorded in `queryError`. -/
def QueryError.message : QueryError → String
  | .SourceUnavailable => "vulnerability source unavailable"
  | .SourceRateLimited => "vulnerability source rate limited"
  | .SourceMalformedResponse => "vulnerability source returned malformed data"
  | .RateLimitTimeout => "rate limiter timed out"
  | .ScanTimedOut => "timed out"

/-- `dependency` field of a result: name/version/ecosystem only. -/
structure DependencySummary where
  name : String
  version : String
  type : Ecosystem
deriving DecidableEq, Repr

/-- Modelled from the spec §4.4: representative version — prefer an exact
`==` pin, otherwise "any". -/
def representativeVersion (r : DependencyRecord) : String :=
  match r.versionConstraint.find? (fun c => c.op == ConstraintOp.eq) with
  | some c => c.version
  | none => "any"

/-- Summarize a record for the report. -/
def summarize (r : DependencyRecord) : DependencySummary :=
  { name := r.name, version := representativeVersion r, type := r.ecosystem }

/-- Scan outcome for one dependency, as in the gateway's
`DependencyResult` plus the spec's `queryError` field. -/
structure DependencyResult where
  dependency : DependencySummary
  vulnerabilities : List Vulnerability
  isVulnerable : Bool
  riskLevel : RiskLevel
  queryError : Option String
deriving DecidableEq, Repr

/-- Modelled from the spec §4.4: build the `DependencyResult` for one
record from the query outcome.  A failed query yields `queryError` set and
`riskLevel = UNKNOWN`; a successful query yields the deduplicated, sorted
vulnerability list and its maximum severity (NONE when empty). -/
def mkResult (r : DependencyRecord) : Except QueryError (List Vulnerability) → DependencyResult
  | .error e =>
    { dependency := summarize r
      vulnerabilities := []
      isVulnerable := false
      riskLevel := .UNKNOWN
      queryError := some e.message }
  | .ok vulns =>
    let vs := sortVulns (dedupByCve vulns)
    { dependency := summarize r
      vulnerabilities := vs
      isVulnerable := !vs.isEmpty
      riskLevel := classify vs
      queryError := none }

/-! ## ResultAggregator (modelled from the spec §4.6) -/

/-- Whole-scan output, as in the gateway's `DependencyHealthResponse`.
`riskSummary` is the severity→count mapping; `scanTimestamp` is an opaque
timestamp value set at aggregation time. -/
structure ScanReport where
  totalDependencies : Nat
  vulnerableDependencies : Nat
  vulnerabilitiesFound : Nat
  riskSummary : RiskLevel → Nat
  results : List DependencyResult
  scanTimestamp : Nat

/-- Bump one bucket of a severity→count mapping. -/
def bumpBucket (m : RiskLevel → Nat) (l : RiskLevel) : RiskLevel → Nat :=
  fun x => if x = l then m x + 1 else m x

/-- One aggregation step for a single `DependencyResult`. -/
def aggStep (rep : ScanReport) (r : DependencyResult) : ScanReport :=
  { rep with
    totalDependencies := rep.totalDependencies + 1
    vulnerableDependencies :=
      rep.vulnerableDependencies + (if r.isVulnerable then 1 else 0)
    vulnerabilitiesFound := rep.vulnerabilitiesFound + r.vulnerabilities.length
    riskSummary := bumpBucket rep.riskSummary r.riskLevel }

/-- Modelled from the spec §4.6: assemble the final report by a single
pass over the results; `scanTimestamp` is set at aggregation time. -/
def aggregate (now : Nat) (results : List DependencyResult) : ScanReport :=
  let acc := results.foldl aggStep
    { totalDependencies := 0
      vulnerableDependencies := 0
      vulnerabilitiesFound := 0
      riskSummary := fun _ => 0
      results := []
      scanTimestamp := now }
  { acc with results := results, scanTimestamp := now }

/-- Sum of the six buckets of a risk summary. -/
def summaryTotal (m : RiskLevel → Nat) : Nat :=
  m .CRITICAL + m .HIGH + m .MEDIUM + m .LOW + m .UNKNOWN + m .NONE

/-! ## ScanOrchestrator (modelled from the spec §4.4) -/

/-- Modelled from the spec: the scan over parsed records.  The external
query is a parameter (one outcome per record).  The scan fails outright
only when there are zero usable records, with the single descriptive error
shown in the service documentation; otherwise every record yields a
result, in manifest order, and the report is aggregated from them. -/
def scan (query : DependencyRecord → Except QueryError (List Vulnerability))
    (now : Nat) (records : List DependencyRecord) : Except String ScanReport :=
  if records.isEmpty then .error "No dependencies found in file"
  else .ok (aggregate now (records.map (fun r => mkResult r (query r))))

/-- Modelled from the spec §5: the per-worker outputs in completion order.
`sched` lists the indices of the records in the order in which the
concurrent workers settle; each worker carries its original index with its
result. -/
def workerOutputs (query : DependencyRecord → Except QueryError (List Vulnerability))
    (records : List DependencyRecord) (sched : List Nat) :
    List (Nat × DependencyResult) :=
  sched.filterMap (fun i => (records[i]?).map (fun r => (i, mkResult r (query r))))

/-- Modelled from the spec §5: the orchestrator's final join places each
completed result back at its original manifest index. -/
def assemble (n : Nat) (outs : List (Nat × DependencyResult)) :
    List DependencyResult :=
  (List.range n).filterMap (fun i => (outs.find? (fun p => p.1 == i)).map (fun p => p.2))

/-- The results sequence produced when workers complete in order `sched`. -/
def scheduledResults (query : DependencyRecord → Except QueryError (List Vulnerability))
    (records : List DependencyRecord) (sched : List Nat) : List DependencyResult :=
  assemble records.length (workerOutputs query records sched)

/-! ## RateLimiter (modelled from the spec §4.2 and the service docs) -/

/-- Modelled from the spec / service docs: window capacity K — 5 requests
per window without an NVD API key, 50 with one. -/
def rateLimitK (hasApiKey : Bool) : Nat :=
  if hasApiKey then 50 else 5

/-- Modelled from the spec / service docs: window length W = 30 seconds. -/
def rateLimitW : Nat := 30

/-- Modelled from the spec §4.2: sliding-window acquisition trace.  The
state is the list of timestamps of grants still inside the window; an
acquire at time `t` first discards grants `g` with `g + W ≤ t`, then
succeeds iff fewer than `K` grants remain in the window.  Concurrent
callers serialize through the limiter's single synchronized state, so a
run is a list of acquire times in nondecreasing order; the value is the
list of timestamps at which acquisition succeeded. -/
def grantsAux (K W : Nat) (s : List Nat) : List Nat → List Nat
  | [] => []
  | t :: ts =>
    let active := s.filter (fun g => t < g + W)
    if active.length < K then t :: grantsAux K W (t :: active) ts
    else grantsAux K W active ts

/-- Timestamps granted by the process-wide limiter (initial state empty)
on a trace of acquire times. -/
def rateLimiterGrants (hasApiKey : Bool) (times : List Nat) : List Nat :=
  grantsAux (rateLimitK hasApiKey) rateLimitW [] times

/-- Number of grants falling in the rolling window [a, a + W). -/
def countWindow (a W : Nat) (grants : List Nat) : Nat :=
  (grants.filter (fun g => a ≤ g && g < a + W)).length

/-! ## ManifestParser (modelled from the spec §4.1 and §6) -/

/-- Manifest formats accepted by the parser. -/
inductive ManifestFormat where
  | requirements_txt
  | package_json
  | raw_text
deriving DecidableEq, Repr

/-- Parser errors; `ManifestTooLarge` per the 5 MB upload limit in the
service docs, `ManifestUnparseable` per spec §7. -/
inductive ParseError where
  | ManifestTooLarge
  | ManifestUnparseable
deriving DecidableEq, Repr

/-- A non-fatal per-line parse warning (spec §7). -/
structure ParseWarning where
  lineNumber : Nat
  text : String
deriving DecidableEq, Repr

/-- UTF-8 byte length of the content, the quantity compared against the
size ceiling. -/
def utf8Len (cs : List Char) : Nat :=
  (cs.map Char.utf8Size).sum

/-- The fixed manifest byte ceiling: 5 MB (service docs: "File upload size
limited to 5MB"). -/
def MAX_MANIFEST_BYTES : Nat := 5 * 1024 * 1024

/-- Whitespace trimmed around names/versions (space, tab, CR). -/
def isWsp (c : Char) : Bool := c = ' ' || c = '\t' || c = '\r'

/-- Trim leading and trailing whitespace. -/
def trimChars (l : List Char) : List Char :=
  ((l.dropWhile isWsp).reverse.dropWhile isWsp).reverse

/-- Split a character list on a separator character. -/
def splitOnChar (sep : Char) : List Char → List (List Char)
  | [] => [[]]
  | c :: cs =>
    let rest := splitOnChar sep cs
    if c = sep then [] :: rest
    else match rest with
      | [] => [[c]]
      | r :: rs => (c :: r) :: rs

/-- Characters allowed in a package name (letters, digits, `-`, `_`, `.`,
`[`, `]` for extras). -/
def isNameChar (c : Char) : Bool :=
  c.isAlphanum || c = '-' || c = '_' || c = '.' || c = '[' || c = ']'

/-- Recognize a constraint operator at the head of the characters,
two-character operators first. -/
def parseOp : List Char → Option (ConstraintOp × List Char)
  | '=' :: '=' :: rest => some (.eq, rest)
  | '>' :: '=' :: rest => some (.ge, rest)
  | '<' :: '=' :: rest => some (.le, rest)
  | '~' :: '=' :: rest => some (.compat, rest)
  | '>' :: rest => some (.gt, rest)
  | '<' :: rest => some (.lt, rest)
  | _ => none

/-- Parse one comma-separated constraint piece, e.g. `>=1.0`. -/
def parseConstraintPiece (piece : List Char) : Option VersionConstraint :=
  match parseOp (trimChars piece) with
  | some (op, rest) => some { op := op, version := String.mk (trimChars rest) }
  | none => none

/-- Parse the constraint section of a requirements line (after the name),
e.g. `>=1.0,<2.0`.  A section in which some piece has no recognizable
operator is treated as unconstrained (spec §4.1: lines without any
operator are unconstrained; only an unparsable name aborts the line). -/
def parseConstraints (rest : List Char) : List VersionConstraint :=
  let pieces := (splitOnChar ',' rest).map parseConstraintPiece
  if pieces.all Option.isSome then pieces.filterMap id else []

/-- Modelled from the spec §4.1: parse one requirements.txt line.  Strips
the `#` comment, trims whitespace; a blank line yields nothing, a line
whose name is unparsable yields a warning, otherwise a record. -/
def parseReqLine (ecosys : Ecosystem) (lineNumber : Nat) (raw : List Char) :
    Option (Except ParseWarning DependencyRecord) :=
  let body := trimChars (raw.takeWhile (fun c => c ≠ '#'))
  if body.isEmpty then none
  else
    let nameChars := body.takeWhile isNameChar
    if nameChars.isEmpty then
      some (.error { lineNumber := lineNumber, text := String.mk raw })
    else
      let rest := trimChars (body.drop nameChars.length)
      some (.ok
        { name := String.mk nameChars
          ecosystem := ecosys
          versionConstraint := parseConstraints rest
          sourceLine := { text := String.mk raw, lineNumber := lineNumber } })

/-- Parse requirements.txt content: one record per usable line, warnings
collected, blank/comment lines skipped, in source order. -/
def parseRequirements (ecosys : Ecosystem) (content : List Char) :
    List DependencyRecord × List ParseWarning :=
  let lines := (splitOnChar '\n' content).enumFrom 1
  lines.foldr
    (fun (l : Nat × List Char) acc =>
      match parseReqLine ecosys l.1 l.2 with
      | none => acc
      | some (.ok r) => (r :: acc.1, acc.2)
      | some (.error w) => (acc.1, w :: acc.2))
    ([], [])

/-- Minimal JSON value tree, for reading package.json. -/
inductive Json where
  | null
  | bool (b : Bool)
  | num (lit : String)
  | str (s : String)
  | arr (items : List Json)
  | obj (fields : List (String × Json))
deriving Repr

/-- Skip JSON whitespace. -/
def skipWs : List Char → List Char
  | c :: cs => if c = ' ' || c = '\t' || c = '\n' || c = '\r' then skipWs cs else c :: cs
  | [] => []

/-- Read a JSON string body after the opening quote; a backslash escapes
the following character literally (Modelled from the spec: the design does
not prescribe escape decoding beyond delimiting). -/
def parseStrBody : Nat → List Char → Option (List Char × List Char)
  | 0, _ => none
  | _, [] => none
  | fuel + 1, c :: cs =>
    if c = '"' then some ([], cs)
    else if c = '\\' then
      match cs with
      | [] => none
      | d :: ds => (parseStrBody fuel ds).map (fun p => (d :: p.1, p.2))
    else (parseStrBody fuel cs).map (fun p => (c :: p.1, p.2))

/-- Characters forming a JSON number/keyword token. -/
def isTokenChar (c : Char) : Bool :=
  c.isDigit || c = '-' || c = '+' || c = '.' || c = 'e' || c = 'E'

mutual

/-- Fuel-bounded JSON value parser. -/
def parseJson : Nat → List Char → Option (Json × List Char)
  | 0, _ => none
  | fuel + 1, input =>
    match skipWs input with
    | [] => none
    | c :: cs =>
      if c = '"' then (parseStrBody fuel cs).map (fun p => (.str (String.mk p.1), p.2))
      else if c = '{' then
        match skipWs cs with
        | '}' :: rest => some (.obj [], rest)
        | other => (parseMembers fuel other).map (fun p => (.obj p.1, p.2))
      else if c = '[' then
        match skipWs cs with
        | ']' :: rest => some (.arr [], rest)
        | other => (parseItems fuel other).map (fun p => (.arr p.1, p.2))
      else if c = 't' then
        match c :: cs with
        | 't' :: 'r' :: 'u' :: 'e' :: rest => some (.bool true, rest)
        | _ => none
      else if c = 'f' then
        match c :: cs with
        | 'f' :: 'a' :: 'l' :: 's' :: 'e' :: rest => some (.bool false, rest)
        | _ => none
      else if c = 'n' then
        match c :: cs with
        | 'n' :: 'u' :: 'l' :: 'l' :: rest => some (.null, rest)
        | _ => none
      else if isTokenChar c then
        some (.num (String.mk ((c :: cs).takeWhile isTokenChar)),
              (c :: cs).dropWhile isTokenChar)
      else none

/-- Parse `"key": value` members up to the closing brace. -/
def parseMembers : Nat → List Char → Option (List (String × Json) × List Char)
  | 0, _ => none
  | fuel + 1, input =>
    match skipWs input with
    | '"' :: cs =>
      match parseStrBody fuel cs with
      | none => none
      | some (key, afterKey) =>
        match skipWs afterKey with
        | ':' :: afterColon =>
          match parseJson fuel afterColon with
          | none => none
          | some (v, afterVal) =>
            match skipWs afterVal with
            | ',' :: more =>
              (parseMembers fuel more).map
                (fun p => ((String.mk key, v) :: p.1, p.2))
            | '}' :: rest => some ([(String.mk key, v)], rest)
            | _ => none
        | _ => none
    | _ => none

/-- Parse array items up to the closing bracket. -/
def parseItems : Nat → List Char → Option (List Json × List Char)
  | 0, _ => none
  | fuel + 1, input =>
    match parseJson fuel input with
    | none => none
    | some (v, afterVal) =>
      match skipWs afterVal with
      | ',' :: more => (parseItems fuel more).map (fun p => (v :: p.1, p.2))
      | ']' :: rest => some ([v], rest)
      | _ => none

end

/-- Look up a key in a parsed JSON object. -/
def jsonLookup (fields : List (String × Json)) (k : String) : Option Json :=
  (fields.find? (fun p => p.1 == k)).map (fun p => p.2)

/-- Modelled from the spec §4.1: a package.json range string becomes a
single constraint entry — caret and tilde ranges keep their operator, a
range starting with a comparison operator keeps that operator, anything
else is kept as an exact pin; an empty range is unconstrained. -/
def nodeConstraint (range : List Char) : List VersionConstraint :=
  let t := trimChars range
  match t with
  | [] => []
  | '^' :: rest => [{ op := .caret, version := String.mk (trimChars rest) }]
  | '~' :: rest => [{ op := .tilde, version := String.mk (trimChars rest) }]
  | _ =>
    match parseOp t with
    | some (op, rest) => [{ op := op, version := String.mk (trimChars rest) }]
    | none => [{ op := .eq, version := String.mk t }]

/-- Records from one `dependencies`-style map: entries with a string range
and a non-empty name, in source order. -/
def depsOfMap (fields : List (String × Json)) : List DependencyRecord :=
  fields.filterMap (fun p =>
    match p.2 with
    | .str range =>
      if p.1 = "" then none
      else some
        { name := p.1
          ecosystem := .node
          versionConstraint := nodeConstraint range.toList
          sourceLine := { text := p.1 ++ ": " ++ range, lineNumber := 0 } }
    | _ => none)

/-- Modelled from the spec §4.1: parse package.json — read the
`dependencies` and `devDependencies` maps; content that is not a JSON
object yields zero records and a warning. -/
def parsePackageJson (content : List Char) :
    List DependencyRecord × List ParseWarning :=
  match parseJson (content.length + 1) content with
  | some (.obj fields, _) =>
    let deps := match jsonLookup fields "dependencies" with
      | some (.obj m) => depsOfMap m
      | _ => []
    let dev := match jsonLookup fields "devDependencies" with
      | some (.obj m) => depsOfMap m
      | _ => []
    (deps ++ dev, [])
  | _ => ([], [{ lineNumber := 0, text := "invalid package.json" }])

/-- Modelled from the spec §4.1: raw text tries the requirements.txt
grammar first and, when zero records result, treats the whole content as
one line. -/
def parseRawText (content : List Char) :
    List DependencyRecord × List ParseWarning :=
  let first := parseRequirements .python content
  if first.1.isEmpty then
    match parseReqLine .python 1 content with
    | some (.ok r) => ([r], [])
    | some (.error w) => ([], [w])
    | none => ([], [])
  else first

/-- Modelled from the spec §4.1: `ManifestParser.parse`.  Inputs over the
fixed 5 MB byte ceiling are rejected with `ManifestTooLarge` before any
parsing; otherwise the format's grammar produces the records and the
collected warnings. -/
def parse (content : List Char) (fmt : ManifestFormat) :
    Except ParseError (List DependencyRecord × List ParseWarning) :=
  if MAX_MANIFEST_BYTES < utf8Len content then .error .ManifestTooLarge
  else .ok (match fmt with
    | .requirements_txt => parseRequirements .python content
    | .package_json => parsePackageJson content
    | .raw_text => parseRawText content)

/-! ## Next.js gateway routes (embedded from
`backend/src/app/api/dependency-health/check-file/route.ts` and
`backend/src/app/api/dependency-health/check-text/route.ts`) -/

/-- Outcome of the gateway's `fetch` to the FastAPI service: the HTTP
status and the JSON body text.  A network failure is the `Except.error`
case with the thrown message. -/
structure UpstreamResponse where
  status : Nat
  body : String
deriving DecidableEq, Repr

/-- `Response.ok` of the Fetch API: status in the range 200–299. -/
def UpstreamResponse.respOk (r : UpstreamResponse) : Bool :=
  200 ≤ r.status && r.status ≤ 299

/-- The JSON envelope and HTTP status a gateway route returns, plus a flag
recording whether the route reached the upstream `fetch` call. -/
structure RouteResponse where
  status : Nat
  success : Bool
  error : Option String
  details : Option String
  data : Option String
  contactedUpstream : Bool
deriving DecidableEq, Repr

/-- `POST /api/dependency-health/check-file` (route.ts lines 6–38): the
form data is forwarded to the FastAPI service; a non-ok upstream status
throws `FastAPI service error: <status>`, and the catch block maps any
thrown error — that one or a network failure — to HTTP 500 with
`success: false`, a fixed `error` string and the message as `details`. -/
def checkFilePOST (upstream : Except String UpstreamResponse) : RouteResponse :=
  match upstream with
  | .error msg =>
    { status := 500, success := false
      error := some "Failed to check dependencies"
      details := some msg, data := none, contactedUpstream := true }
  | .ok r =>
    if r.respOk then
      { status := 200, success := true, error := none, details := none
        data := some r.body, contactedUpstream := true }
    else
      { status := 500, success := false
        error := some "Failed to check dependencies"
        details := some ("FastAPI service error: " ++ toString r.status)
        data := none, contactedUpstream := true }

/-- The parsed JSON body of a check-text request; each field is absent or
a string (the route only reads these two fields). -/
structure CheckTextBody where
  content : Option String
  file_type : Option String
deriving DecidableEq, Repr

/-- JavaScript truthiness of an optional string field: absent and the
empty string are falsy. -/
def strTruthy : Option String → Bool
  | none => false
  | some s => !(s == "")

/-- `POST /api/dependency-health/check-text` (route.ts lines 6–59):
missing/falsy `content` or `file_type` → 400; a `file_type` other than
`requirements.txt` or `package.json` → 400; both without contacting the
upstream service.  Otherwise the request is forwarded and handled exactly
as in `checkFilePOST`, with this route's error string. -/
def checkTextPOST (body : CheckTextBody)
    (upstream : Except String UpstreamResponse) : RouteResponse :=
  if !(strTruthy body.content) || !(strTruthy body.file_type) then
    { status := 400, success := false
      error := some "Content and file_type are required"
      details := none, data := none, contactedUpstream := false }
  else if !(body.file_type == some "requirements.txt"
            || body.file_type == some "package.json") then
    { status := 400, success := false
      error := some "Invalid file type. Must be requirements.txt or package.json"
      details := none, data := none, contactedUpstream := false }
  else
    match upstream with
    | .error msg =>
      { status := 500, success := false
        error := some "Failed to check dependencies from text"
        details := some msg, data := none, contactedUpstream := true }
    | .ok r =>
      if r.respOk then
        { status := 200, success := true, error := none, details := none
          data := some r.body, contactedUpstream := true }
      else
        { status := 500, success := false
          error := some "Failed to check dependencies from text"
          details := some ("FastAPI service error: " ++ toString r.status)
          data := none, contactedUpstream := true }

/-- An upstream interaction that failed: a network error or a non-2xx
response. -/
def upstreamFailed (u : Except String UpstreamResponse) : Prop :=
  (∃ m, u = .error m) ∨ (∃ r, u = .ok r ∧ r.respOk = false)

instance (u : Except String UpstreamResponse) : Decidable (upstreamFailed u) := by
  unfold upstreamFailed
  cases u with
  | error m => exact .isTrue (.inl ⟨m, rfl⟩)
  | ok r =>
    cases h : r.respOk with
    | true =>
      refine .isFalse ?_
      rintro (⟨m, hm⟩ | ⟨r2, hr2, hok⟩)
      · exact Except.noConfusion hm
      · cases hr2; rw [h] at hok; exact Bool.noConfusion hok
    | false => exact .isTrue (.inr ⟨r, rfl, h⟩)

/-! ## Aggregation lemmas -/

/-- The initial (empty) report fed to the aggregation fold. -/
def emptyReport (now : Nat) : ScanReport :=
  { totalDependencies := 0
    vulnerableDependencies := 0
    vulnerabilitiesFound := 0
    riskSummary := fun _ => 0
    results := []
    scanTimestamp := now }

theorem aggregate_eq_fold (now : Nat) (rs : List DependencyResult) :
    aggregate now rs =
      { rs.foldl aggStep (emptyReport now) with results := rs, scanTimestamp := now } :=
  rfl

theorem foldl_aggStep_bucket (rs : List DependencyResult) :
    ∀ (acc : ScanReport) (l : RiskLevel),
      (rs.foldl aggStep acc).riskSummary l =
        acc.riskSummary l + (rs.filter (fun r => r.riskLevel = l)).length := by
  induction rs with
  | nil => intro acc l; simp
  | cons r rs ih =>
    intro acc l
    rw [List.foldl_cons, ih, List.filter_cons]
    by_cases h : r.riskLevel = l
    · simp [aggStep, bumpBucket, h, Nat.add_comm, Nat.add_assoc, Nat.add_left_comm]
    · have h' : ¬(l = r.riskLevel) := fun hh => h hh.symm
      simp [aggStep, bumpBucket, h, h']

theorem foldl_aggStep_total (rs : List DependencyResult) :
    ∀ acc : ScanReport,
      (rs.foldl aggStep acc).totalDependencies = acc.totalDependencies + rs.length := by
  induction rs with
  | nil => intro acc; simp
  | cons r rs ih =>
    intro acc
    rw [List.foldl_cons, ih]
    simp [aggStep]
    omega

theorem foldl_aggStep_found (rs : List DependencyResult) :
    ∀ acc : ScanReport,
      (rs.foldl aggStep acc).vulnerabilitiesFound =
        acc.vulnerabilitiesFound + (rs.map (fun r => r.vulnerabilities.length)).sum := by
  induction rs with
  | nil => intro acc; simp
  | cons r rs ih =>
    intro acc
    rw [List.foldl_cons, ih]
    simp [aggStep]
    omega

theorem bucket_counts_sum (rs : List DependencyResult) :
    (rs.filter (fun r => r.riskLevel = RiskLevel.CRITICAL)).length
      + (rs.filter (fun r => r.riskLevel = RiskLevel.HIGH)).length
      + (rs.filter (fun r => r.riskLevel = RiskLevel.MEDIUM)).length
      + (rs.filter (fun r => r.riskLevel = RiskLevel.LOW)).length
      + (rs.filter (fun r => r.riskLevel = RiskLevel.UNKNOWN)).length
      + (rs.filter (fun r => r.riskLevel = RiskLevel.NONE)).length = rs.length := by
  induction rs with
  | nil => simp
  | cons r rs ih =>
    simp only [List.filter_cons, List.length_cons]
    cases h : r.riskLevel <;> simp [h] at * <;> omega

/-- C1. For every scan result — including all-failed and all-empty
scans — each dependency contributes to exactly one `riskSummary` bucket,
the bucket of its `riskLevel` (UNKNOWN and NONE included): each bucket's
count equals the number of results at that risk level, and the six bucket
counts sum to exactly `totalDependencies`. -/
theorem riskSummary_partition (now : Nat) (rs : List DependencyResult) :
    (∀ l : RiskLevel,
       (aggregate now rs).riskSummary l =
         (rs.filter (fun r => r.riskLevel = l)).length) ∧
    (aggregate now rs).totalDependencies = rs.length ∧
    summaryTotal (aggregate now rs).riskSummary =
      (aggregate now rs).totalDependencies := by
  have hbucket : ∀ l, (aggregate now rs).riskSummary l =
      (rs.filter (fun r => r.riskLevel = l)).length := by
    intro l
    rw [aggregate_eq_fold]
    show (rs.foldl aggStep (emptyReport now)).riskSummary l = _
    rw [foldl_aggStep_bucket]
    simp [emptyReport]
  have htotal : (aggregate now rs).totalDependencies = rs.length := by
    rw [aggregate_eq_fold]
    show (rs.foldl aggStep (emptyReport now)).totalDependencies = _
    rw [foldl_aggStep_total]
    simp [emptyReport]
  refine ⟨hbucket, htotal, ?_⟩
  rw [htotal]
  unfold summaryTotal
  rw [hbucket, hbucket, hbucket, hbucket, hbucket, hbucket]
  exact bucket_counts_sum rs

/-- C7. For every report, `vulnerabilitiesFound` equals the sum of the
lengths of the per-result vulnerability lists. -/
theorem vulnerabilitiesFound_eq_sum (now : Nat) (rs : List DependencyResult) :
    (aggregate now rs).vulnerabilitiesFound =
      ((aggregate now rs).results.map (fun r => r.vulnerabilities.length)).sum := by
  rw [aggregate_eq_fold]
  show (rs.foldl aggStep (emptyReport now)).vulnerabilitiesFound = _
  rw [foldl_aggStep_found]
  simp [emptyReport]

/-! ## Severity derivation (C5) -/

/-- C5. For every vulnerability whose severity string is absent, the
bucket is derived from the CVSS score: ≥9.0 CRITICAL, ≥7.0 HIGH, ≥4.0
MEDIUM, >0 LOW, otherwise — including an absent score — UNKNOWN; the
derivation is a total function and never errors. -/
theorem severity_from_cvss (v : Vulnerability) (habs : v.severity = none) :
    (v.cvssScore = none → effectiveSeverity v = .UNKNOWN) ∧
    (∀ s : ℚ, v.cvssScore = some s →
      ((9 ≤ s → effectiveSeverity v = .CRITICAL) ∧
       (7 ≤ s → s < 9 → effectiveSeverity v = .HIGH) ∧
       (4 ≤ s → s < 7 → effectiveSeverity v = .MEDIUM) ∧
       (0 < s → s < 4 → effectiveSeverity v = .LOW) ∧
       (s ≤ 0 → effectiveSeverity v = .UNKNOWN))) := by
  simp only [effectiveSeverity, habs]
  constructor
  · intro hn; rw [hn]; rfl
  · intro s hs
    rw [hs]
    simp only [cvssToSeverity]
    refine ⟨fun h9 => ?_, fun h7 h9 => ?_, fun h4 h7 => ?_, fun h0 h4 => ?_,
      fun hle => ?_⟩
    · rw [if_pos h9]
    · rw [if_neg (by linarith), if_pos h7]
    · rw [if_neg (by linarith), if_neg (by linarith), if_pos h4]
    · rw [if_neg (by linarith), if_neg (by linarith), if_neg (by linarith),
        if_pos h0]
    · rw [if_neg (by linarith), if_neg (by linarith), if_neg (by linarith),
        if_neg (by linarith)]

/-- Concrete instance of `severity_from_cvss`: a finding with no severity
string and CVSS 6.1 classifies as MEDIUM, one scored 9.8 as CRITICAL. -/
theorem severity_from_cvss_witness :
    effectiveSeverity
      { cveId := "CVE-2023-32681", description := "", severity := none
        cvssScore := some (61/10), publishedDate := "", lastModifiedDate := ""
        affectedVersions := [], fixedVersions := [] } = .MEDIUM ∧
    effectiveSeverity
      { cveId := "CVE-2024-0001", description := "", severity := none
        cvssScore := some (98/10), publishedDate := "", lastModifiedDate := ""
        affectedVersions := [], fixedVersions := [] } = .CRITICAL := by
  constructor
  · exact (((severity_from_cvss _ rfl).2 (61/10) rfl).2.2.1 (by norm_num)
      (by norm_num))
  · exact ((severity_from_cvss _ rfl).2 (98/10) rfl).1 (by norm_num)

/-! ## Manifest size guard (C8) -/

/-- C8. Every input whose UTF-8 byte size exceeds the fixed 5 MB ceiling
is rejected with `ManifestTooLarge`, for every format, before any parsing
happens. -/
theorem manifest_size_guard (content : List Char) (fmt : ManifestFormat)
    (h : MAX_MANIFEST_BYTES < utf8Len content) :
    parse content fmt = .error .ManifestTooLarge := by
  unfold parse
  rw [if_pos h]

/-- Concrete instance of `manifest_size_guard`: 5 MB + 1 bytes of `a` are
rejected in every format. -/
theorem manifest_size_guard_witness :
    parse (List.replicate (5 * 1024 * 1024 + 1) 'a') .requirements_txt
        = .error .ManifestTooLarge ∧
    parse (List.replicate (5 * 1024 * 1024 + 1) 'a') .package_json
        = .error .ManifestTooLarge ∧
    parse (List.replicate (5 * 1024 * 1024 + 1) 'a') .raw_text
        = .error .ManifestTooLarge := by
  have hsize : MAX_MANIFEST_BYTES < utf8Len (List.replicate (5 * 1024 * 1024 + 1) 'a') := by
    have h1 : Char.utf8Size 'a' = 1 := rfl
    rw [utf8Len, List.map_replicate, h1, List.sum_replicate, smul_eq_mul,
      Nat.mul_one]
    decide
  exact ⟨manifest_size_guard _ _ hsize, manifest_size_guard _ _ hsize,
    manifest_size_guard _ _ hsize⟩

/-! ## Gateway error mapping (C9, C10) -/

/-- A check-text body that passes both validation checks of the route. -/
def bodyAccepted (b : CheckTextBody) : Prop :=
  strTruthy b.content = true ∧
  (b.file_type = some "requirements.txt" ∨ b.file_type = some "package.json")

instance (b : CheckTextBody) : Decidable (bodyAccepted b) := by
  unfold bodyAccepted; infer_instance

/-- C9. On both dependency-health proxy routes, every upstream non-2xx
response and every network failure is mapped to HTTP 500 with the
`{success: false, error, details}` envelope; the upstream status code is
not used as the response status (an upstream 400 surfaces as a gateway
500) and the upstream body is never included in the response. -/
theorem gateway_maps_upstream_failure_to_500
    (u : Except String UpstreamResponse) (hu : upstreamFailed u) :
    ((checkFilePOST u).status = 500 ∧
     (checkFilePOST u).success = false ∧
     (checkFilePOST u).error = some "Failed to check dependencies" ∧
     (checkFilePOST u).details.isSome = true ∧
     (checkFilePOST u).data = none) ∧
    (∀ b : CheckTextBody, bodyAccepted b →
      (checkTextPOST b u).status = 500 ∧
      (checkTextPOST b u).success = false ∧
      (checkTextPOST b u).error = some "Failed to check dependencies from text" ∧
      (checkTextPOST b u).details.isSome = true ∧
      (checkTextPOST b u).data = none) := by
  constructor
  · rcases hu with ⟨m, hm⟩ | ⟨r, hr, hok⟩
    · subst hm; simp [checkFilePOST]
    · subst hr; simp [checkFilePOST, hok]
  · intro b hb
    obtain ⟨hc, hf⟩ := hb
    have hft : strTruthy b.file_type = true := by
      rcases hf with h | h <;> rw [h] <;> rfl
    have hcase : (b.file_type == some "requirements.txt"
        || b.file_type == some "package.json") = true := by
      rcases hf with h | h <;> rw [h] <;> rfl
    rcases hu with ⟨m, hm⟩ | ⟨r, hr, hok⟩
    · subst hm; simp [checkTextPOST, hc, hft, hcase]
    · subst hr; simp [checkTextPOST, hc, hft, hcase, hok]

/-- Concrete instance of `gateway_maps_upstream_failure_to_500`: an
upstream 400 (the FastAPI "No dependencies found in file" case) becomes a
gateway 500 on both routes. -/
theorem gateway_maps_upstream_failure_to_500_witness :
    upstreamFailed (Except.ok { status := 400, body := "No dependencies found in file" }) ∧
    (checkFilePOST (Except.ok { status := 400, body := "No dependencies found in file" })).status = 500 ∧
    (checkTextPOST { content := some "flask==2.3.3", file_type := some "requirements.txt" }
        (Except.ok { status := 400, body := "No dependencies found in file" })).status = 500 := by
  have hu : upstreamFailed
      (Except.ok { status := 400, body := "No dependencies found in file" }
        : Except String UpstreamResponse) := by decide
  refine ⟨hu, (gateway_maps_upstream_failure_to_500 _ hu).1.1, ?_⟩
  exact ((gateway_maps_upstream_failure_to_500 _ hu).2
    { content := some "flask==2.3.3", file_type := some "requirements.txt" }
    (by decide)).1

/-- C10. On the check-text route, a body whose `content` or `file_type`
is missing or falsy, or whose `file_type` is not exactly
`requirements.txt` or `package.json`, is answered with HTTP 400 and
`success: false`, and the upstream scanning service is never contacted —
so raw pasted text cannot be submitted under any other format label. -/
theorem check_text_validation_rejects_with_400
    (b : CheckTextBody) (u : Except String UpstreamResponse)
    (hb : strTruthy b.content = false ∨ strTruthy b.file_type = false ∨
      (b.file_type ≠ some "requirements.txt" ∧ b.file_type ≠ some "package.json")) :
    (checkTextPOST b u).status = 400 ∧
    (checkTextPOST b u).success = false ∧
    (checkTextPOST b u).contactedUpstream = false := by
  by_cases h1 : (!(strTruthy b.content) || !(strTruthy b.file_type)) = true
  · simp [checkTextPOST, h1]
  · have hc : strTruthy b.content = true := by
      rcases hcc : strTruthy b.content with _ | _
      · rw [hcc] at h1; simp at h1
      · rfl
    have hft : strTruthy b.file_type = true := by
      rcases hcc : strTruthy b.file_type with _ | _
      · rw [hcc] at h1; simp at h1
      · rfl
    rcases hb with h | h | ⟨hna, hnb⟩
    · rw [h] at hc; exact absurd hc (by simp)
    · rw [h] at hft; exact absurd hft (by simp)
    · have hcase : (b.file_type == some "requirements.txt"
          || b.file_type == some "package.json") = false := by
        simp [hna, hnb]
      simp [checkTextPOST, hc, hft, hcase]

/-- Concrete instance of `check_text_validation_rejects_with_400`: pasted
text labelled `pyproject.toml` is rejected with 400 and the upstream is
not contacted. -/
theorem check_text_validation_rejects_with_400_witness :
    (checkTextPOST { content := some "flask==2.3.3", file_type := some "pyproject.toml" }
        (Except.ok { status := 200, body := "{}" })).status = 400 ∧
    (checkTextPOST { content := some "flask==2.3.3", file_type := some "pyproject.toml" }
        (Except.ok { status := 200, body := "{}" })).contactedUpstream = false := by
  have h := check_text_validation_rejects_with_400
    { content := some "flask==2.3.3", file_type := some "pyproject.toml" }
    (Except.ok { status := 200, body := "{}" })
    (by decide)
  exact ⟨h.1, h.2.2⟩

/-! ## Risk level as the maximum severity (C6) -/

theorem rank_le_max_left (a b : RiskLevel) : a.rank ≤ (a.max b).rank := by
  unfold RiskLevel.max; split <;> omega

theorem rank_le_max_right (a b : RiskLevel) : b.rank ≤ (a.max b).rank := by
  unfold RiskLevel.max; split <;> omega

theorem max_choice (a b : RiskLevel) : a.max b = a ∨ a.max b = b := by
  unfold RiskLevel.max; split
  · exact .inr rfl
  · exact .inl rfl

theorem rank_init_le_classify_foldl (vs : List Vulnerability) :
    ∀ init : RiskLevel,
      init.rank ≤
        (vs.foldl (fun acc v => acc.max (effectiveSeverity v).toRisk) init).rank := by
  induction vs with
  | nil => intro init; simp
  | cons v vs ih =>
    intro init
    calc init.rank
        ≤ (init.max (effectiveSeverity v).toRisk).rank := rank_le_max_left _ _
      _ ≤ _ := ih _

theorem mem_rank_le_classify_foldl (vs : List Vulnerability) :
    ∀ (init : RiskLevel), ∀ v ∈ vs,
      ((effectiveSeverity v).toRisk).rank ≤
        (vs.foldl (fun acc v => acc.max (effectiveSeverity v).toRisk) init).rank := by
  induction vs with
  | nil => intro init v hv; exact absurd hv (List.not_mem_nil v)
  | cons w vs ih =>
    intro init v hv
    rw [List.foldl_cons]
    rcases List.mem_cons.mp hv with h | h
    · subst h
      calc ((effectiveSeverity v).toRisk).rank
          ≤ (init.max (effectiveSeverity v).toRisk).rank := rank_le_max_right _ _
        _ ≤ _ := rank_init_le_classify_foldl vs _
    · exact ih _ v h

theorem classify_foldl_attained (vs : List Vulnerability) :
    ∀ init : RiskLevel,
      (vs.foldl (fun acc v => acc.max (effectiveSeverity v).toRisk) init = init) ∨
      ∃ v ∈ vs,
        vs.foldl (fun acc v => acc.max (effectiveSeverity v).toRisk) init =
          (effectiveSeverity v).toRisk := by
  induction vs with
  | nil => intro init; exact .inl rfl
  | cons w vs ih =>
    intro init
    rw [List.foldl_cons]
    rcases ih (init.max (effectiveSeverity w).toRisk) with h | ⟨v, hv, hfold⟩
    · rw [h]
      rcases max_choice init (effectiveSeverity w).toRisk with h2 | h2
      · exact .inl h2
      · exact .inr ⟨w, List.mem_cons_self w vs, h2⟩
    · exact .inr ⟨v, List.mem_cons_of_mem w hv, hfold⟩

theorem one_le_rank_toRisk (s : Severity) : 1 ≤ s.toRisk.rank := by
  cases s <;> decide

theorem insertVuln_ne_nil (v : Vulnerability) (l : List Vulnerability) :
    insertVuln v l ≠ [] := by
  cases l with
  | nil => simp [insertVuln]
  | cons w ws => simp only [insertVuln]; split <;> simp

theorem sortVulns_cons_ne_nil (v : Vulnerability) (vs : List Vulnerability) :
    sortVulns (v :: vs) ≠ [] :=
  insertVuln_ne_nil v (sortVulns vs)

theorem dedupByCve_cons_ne_nil (v : Vulnerability) (vs : List Vulnerability) :
    dedupByCve (v :: vs) ≠ [] := by
  simp [dedupByCve, dedupByCve.go]

theorem prepared_ne_nil (vulns : List Vulnerability) (h : vulns ≠ []) :
    sortVulns (dedupByCve vulns) ≠ [] := by
  cases vulns with
  | nil => exact absurd rfl h
  | cons v vs =>
    rcases hd : dedupByCve (v :: vs) with _ | ⟨w, ws⟩
    · exact absurd hd (dedupByCve_cons_ne_nil v vs)
    · exact sortVulns_cons_ne_nil w ws

/-- C6. For every `DependencyResult`: on a failed query the risk level is
UNKNOWN with `queryError` set; on a successful query `queryError` is
empty, the risk level bounds the severity of every stored vulnerability,
is attained by one of them when any exist, and is NONE exactly when the
query returned zero vulnerabilities. -/
theorem riskLevel_is_max_severity (r : DependencyRecord)
    (outcome : Except QueryError (List Vulnerability)) :
    (∀ e, outcome = .error e →
       (mkResult r outcome).riskLevel = .UNKNOWN ∧
       (mkResult r outcome).queryError.isSome = true) ∧
    (∀ vulns, outcome = .ok vulns →
       (mkResult r outcome).queryError = none ∧
       (∀ v ∈ (mkResult r outcome).vulnerabilities,
          ((effectiveSeverity v).toRisk).rank ≤ (mkResult r outcome).riskLevel.rank) ∧
       ((mkResult r outcome).vulnerabilities ≠ [] →
          ∃ v ∈ (mkResult r outcome).vulnerabilities,
            (effectiveSeverity v).toRisk = (mkResult r outcome).riskLevel) ∧
       ((mkResult r outcome).riskLevel = .NONE ↔ vulns = [])) := by
  constructor
  · intro e he; subst he
    exact ⟨rfl, rfl⟩
  · intro vulns h; subst h
    have hres : mkResult r (.ok vulns) =
        { dependency := summarize r
          vulnerabilities := sortVulns (dedupByCve vulns)
          isVulnerable := !(sortVulns (dedupByCve vulns)).isEmpty
          riskLevel := classify (sortVulns (dedupByCve vulns))
          queryError := none } := rfl
    rw [hres]
    refine ⟨rfl, ?_, ?_, ?_⟩
    · intro v hv
      exact mem_rank_le_classify_foldl _ _ v hv
    · intro hne
      rcases classify_foldl_attained (sortVulns (dedupByCve vulns)) .NONE
          with hinit | ⟨v, hv, hfold⟩
      · exfalso
        rcases hl : sortVulns (dedupByCve vulns) with _ | ⟨w, ws⟩
        · exact hne hl
        · have h1 := mem_rank_le_classify_foldl (sortVulns (dedupByCve vulns))
            .NONE w (by rw [hl]; exact List.mem_cons_self w ws)
          rw [hinit] at h1
          have h2 := one_le_rank_toRisk (effectiveSeverity w)
          exact absurd (le_trans h2 h1) (by decide)
      · exact ⟨v, hv, hfold.symm⟩
    · constructor
      · intro hnone
        by_contra hne
        have hpne := prepared_ne_nil vulns hne
        rcases hl : sortVulns (dedupByCve vulns) with _ | ⟨w, ws⟩
        · exact hpne hl
        · have h1 := mem_rank_le_classify_foldl (sortVulns (dedupByCve vulns))
            .NONE w (by rw [hl]; exact List.mem_cons_self w ws)
          have h2 := one_le_rank_toRisk (effectiveSeverity w)
          have hnone2 : List.foldl
              (fun acc v => acc.max (effectiveSeverity v).toRisk) .NONE
              (sortVulns (dedupByCve vulns)) = RiskLevel.NONE := hnone
          rw [hnone2] at h1
          exact absurd (le_trans h2 h1) (by decide)
      · intro hnil
        subst hnil
        rfl

/-- Concrete instance of `riskLevel_is_max_severity`: a failed query
yields UNKNOWN with an error recorded; a successful query with two
findings yields no error and a risk level other than NONE. -/
theorem riskLevel_is_max_severity_witness :
    (mkResult
      { name := "flask", ecosystem := .python, versionConstraint := []
        sourceLine := { text := "flask", lineNumber := 1 } }
      (.error .SourceUnavailable)).riskLevel = .UNKNOWN ∧
    (mkResult
      { name := "requests", ecosystem := .python, versionConstraint := []
        sourceLine := { text := "requests", lineNumber := 2 } }
      (.ok
        [{ cveId := "CVE-A", description := "", severity := some "LOW"
           cvssScore := none, publishedDate := "", lastModifiedDate := ""
           affectedVersions := [], fixedVersions := [] },
         { cveId := "CVE-B", description := "", severity := some "HIGH"
           cvssScore := none, publishedDate := "", lastModifiedDate := ""
           affectedVersions := [], fixedVersions := [] }])).queryError = none ∧
    ¬((mkResult
      { name := "requests", ecosystem := .python, versionConstraint := []
        sourceLine := { text := "requests", lineNumber := 2 } }
      (.ok
        [{ cveId := "CVE-A", description := "", severity := some "LOW"
           cvssScore := none, publishedDate := "", lastModifiedDate := ""
           affectedVersions := [], fixedVersions := [] },
         { cveId := "CVE-B", description := "", severity := some "HIGH"
           cvssScore := none, publishedDate := "", lastModifiedDate := ""
           affectedVersions := [], fixedVersions := [] }])).riskLevel = .NONE) := by
  refine ⟨((riskLevel_is_max_severity _ _).1 .SourceUnavailable rfl).1, ?_, ?_⟩
  · exact (((riskLevel_is_max_severity _ _).2 _ rfl)).1
  · intro hnone
    exact List.noConfusion ((((riskLevel_is_max_severity _ _).2 _ rfl)).2.2.2.mp hnone)

/-! ## Scan-level error containment (C2) -/

/-- C2. A per-dependency query failure never aborts the scan: the failing
dependency's result carries `queryError` and `riskLevel = UNKNOWN`, every
other dependency still yields its result, and the scan as a whole fails
— with the single descriptive error — exactly when the parser produced
zero usable records. -/
theorem scan_survives_per_dependency_failure
    (query : DependencyRecord → Except QueryError (List Vulnerability))
    (now : Nat) (records : List DependencyRecord) :
    (records = [] → scan query now records = .error "No dependencies found in file") ∧
    ((∃ msg, scan query now records = .error msg) → records = []) ∧
    (records ≠ [] →
      ∃ rep, scan query now records = .ok rep ∧
        rep.results.length = records.length ∧
        ∀ i, (hi : i < records.length) →
          ∃ res, rep.results[i]? = some res ∧
            (∀ e, query records[i] = .error e →
               res.queryError.isSome = true ∧ res.riskLevel = .UNKNOWN) ∧
            (∀ vulns, query records[i] = .ok vulns → res.queryError = none)) := by
  refine ⟨?_, ?_, ?_⟩
  · intro h; subst h; rfl
  · rintro ⟨msg, hmsg⟩
    cases records with
    | nil => rfl
    | cons r rs => simp [scan] at hmsg
  · intro hne
    cases records with
    | nil => exact absurd rfl hne
    | cons r rs =>
      refine ⟨aggregate now ((r :: rs).map (fun x => mkResult x (query x))),
        by simp [scan], ?_, ?_⟩
      · show ((r :: rs).map (fun x => mkResult x (query x))).length = _
        exact List.length_map _ _
      · intro i hi
        refine ⟨mkResult (r :: rs)[i] (query (r :: rs)[i]), ?_, ?_, ?_⟩
        · show ((r :: rs).map (fun x => mkResult x (query x)))[i]? = _
          rw [List.getElem?_map, List.getElem?_eq_getElem hi]
          rfl
        · intro e he
          rw [he]
          exact ⟨rfl, rfl⟩
        · intro vulns hv
          rw [hv]
          rfl

/-- Concrete instance of `scan_survives_per_dependency_failure`: with one
of two queries failing, the scan still returns a report. -/
theorem scan_survives_per_dependency_failure_witness :
    ∃ rep,
      scan
        (fun r => if r.name = "flask"
          then Except.error QueryError.SourceUnavailable else Except.ok [])
        0
        [{ name := "flask", ecosystem := .python, versionConstraint := []
           sourceLine := { text := "flask", lineNumber := 1 } },
         { name := "requests", ecosystem := .python, versionConstraint := []
           sourceLine := { text := "requests", lineNumber := 2 } }] = .ok rep :=
  match (scan_survives_per_dependency_failure
      (fun r => if r.name = "flask"
        then Except.error QueryError.SourceUnavailable else Except.ok [])
      0
      [{ name := "flask", ecosystem := .python, versionConstraint := []
         sourceLine := { text := "flask", lineNumber := 1 } },
       { name := "requests", ecosystem := .python, versionConstraint := []
         sourceLine := { text := "requests", lineNumber := 2 } }]).2.2
      (by simp) with
  | ⟨rep, h, _⟩ => ⟨rep, h⟩

/-! ## Manifest-order preservation under any completion order (C3) -/

theorem filterMap_eq_map_of_some {α β : Type} (l : List α) (f : α → Option β)
    (g : α → β) (h : ∀ a ∈ l, f a = some (g a)) : l.filterMap f = l.map g := by
  induction l with
  | nil => rfl
  | cons a l ih =>
    rw [List.filterMap_cons, h a (List.mem_cons_self a l), List.map_cons,
      ih (fun b hb => h b (List.mem_cons_of_mem a hb))]

/-- Placeholder record used only to express total indexing. -/
def defaultRecord : DependencyRecord :=
  { name := "", ecosystem := .python, versionConstraint := []
    sourceLine := { text := "", lineNumber := 0 } }

theorem workerOutputs_find
    (query : DependencyRecord → Except QueryError (List Vulnerability))
    (records : List DependencyRecord) :
    ∀ (sched : List Nat), (∀ j ∈ sched, j < records.length) →
      ∀ i ∈ sched,
        (workerOutputs query records sched).find? (fun p => p.1 == i) =
          some (i, mkResult (records.getD i defaultRecord)
            (query (records.getD i defaultRecord))) := by
  intro sched
  induction sched with
  | nil => intro _ i hi; exact absurd hi (List.not_mem_nil i)
  | cons j sj ih =>
    intro hsc i hi
    have hj : j < records.length := hsc j (List.mem_cons_self j sj)
    have hjget : records[j]? = some (records.getD j defaultRecord) := by
      rw [List.getElem?_eq_getElem hj, List.getD_eq_getElem records defaultRecord hj]
    unfold workerOutputs
    rw [List.filterMap_cons, hjget]
    show List.find? (fun p => p.1 == i)
      ((j, mkResult (records.getD j defaultRecord)
          (query (records.getD j defaultRecord))) ::
        workerOutputs query records sj) = _
    by_cases hij : j = i
    · subst hij
      rw [List.find?_cons_of_pos _ (by simp)]
    · rw [List.find?_cons_of_neg _ (by simp [hij])]
      have hi' : i ∈ sj := by
        rcases List.mem_cons.mp hi with h | h
        · exact absurd h.symm hij
        · exact h
      exact ih (fun x hx => hsc x (List.mem_cons_of_mem j hx)) i hi'

/-- C3. The final results sequence is in the same order as the input
manifest records, for every completion order of the concurrent workers:
whenever the workers settle in any permutation `sched` of the record
indices, the assembled output equals the manifest-ordered results. -/
theorem results_in_manifest_order
    (query : DependencyRecord → Except QueryError (List Vulnerability))
    (records : List DependencyRecord) (sched : List Nat)
    (hperm : sched.Perm (List.range records.length)) :
    scheduledResults query records sched =
      records.map (fun r => mkResult r (query r)) := by
  have hsc : ∀ j ∈ sched, j < records.length := fun j hj =>
    List.mem_range.mp (hperm.mem_iff.mp hj)
  unfold scheduledResults assemble
  rw [filterMap_eq_map_of_some _ _
    (fun i => mkResult (records.getD i defaultRecord)
      (query (records.getD i defaultRecord)))
    (fun i hi => by
      rw [workerOutputs_find query records sched hsc i
        (hperm.mem_iff.mpr (List.mem_range.mpr (List.mem_range.mp hi)))]
      rfl)]
  apply List.ext_getElem
  · simp
  · intro n h1 h2
    have hn : n < records.length := by simpa using h2
    rw [List.getElem_map, List.getElem_map, List.getElem_range,
      List.getD_eq_getElem records defaultRecord hn]

/-- Concrete instance of `results_in_manifest_order`: two workers
completing in reversed order still produce manifest-ordered results. -/
theorem results_in_manifest_order_witness :
    scheduledResults
      (fun _ => Except.ok [])
      [{ name := "flask", ecosystem := .python, versionConstraint := []
         sourceLine := { text := "flask", lineNumber := 1 } },
       { name := "requests", ecosystem := .python, versionConstraint := []
         sourceLine := { text := "requests", lineNumber := 2 } }]
      [1, 0] =
      [{ name := "flask", ecosystem := .python, versionConstraint := []
         sourceLine := { text := "flask", lineNumber := 1 } },
       { name := "requests", ecosystem := .python, versionConstraint := []
         sourceLine := { text := "requests", lineNumber := 2 } }].map
        (fun r => mkResult r (Except.ok [])) :=
  results_in_manifest_order _ _ [1, 0] (by decide)

/-! ## Sliding-window rate limit bound (C4) -/

theorem grantsAux_cons (K W : Nat) (s : List Nat) (t : Nat) (ts : List Nat) :
    grantsAux K W s (t :: ts) =
      if (s.filter (fun g => t < g + W)).length < K
      then t :: grantsAux K W (t :: s.filter (fun g => t < g + W)) ts
      else grantsAux K W (s.filter (fun g => t < g + W)) ts := rfl

theorem grantsAux_mem (K W : Nat) :
    ∀ (ts s : List Nat) (g : Nat), g ∈ grantsAux K W s ts → g ∈ ts := by
  intro ts
  induction ts with
  | nil => intro s g hg; exact absurd hg (List.not_mem_nil g)
  | cons t ts ih =>
    intro s g hg
    rw [grantsAux_cons] at hg
    by_cases hc : (s.filter (fun x => t < x + W)).length < K
    · rw [if_pos hc] at hg
      rcases List.mem_cons.mp hg with h | h
      · exact h ▸ List.mem_cons_self t ts
      · exact List.mem_cons_of_mem t (ih _ g h)
    · rw [if_neg hc] at hg
      exact List.mem_cons_of_mem t (ih _ g hg)

theorem filter_window_sub (s : List Nat) (a t W : Nat) (h : t < a + W) :
    (s.filter (fun g => t < g + W)).filter (fun g => a ≤ g) =
      s.filter (fun g => a ≤ g) := by
  rw [List.filter_filter]
  exact List.filter_congr (fun x _ => by
    by_cases hax : a ≤ x
    · have hx : t < x + W := Nat.lt_of_lt_of_le h (Nat.add_le_add_right hax W)
      simp [hax, hx]
    · simp [hax])

theorem countWindow_eq_zero_of_late (a W t : Nat) (l : List Nat)
    (hlate : a + W ≤ t) (hmem : ∀ g ∈ l, t ≤ g) :
    countWindow a W l = 0 := by
  unfold countWindow
  rw [List.filter_eq_nil_iff.mpr (fun g hg => by
    have h1 : a + W ≤ g := le_trans hlate (hmem g hg)
    simp
    intro _
    omega)]
  rfl

theorem countWindow_cons (a W t : Nat) (l : List Nat) :
    countWindow a W (t :: l) =
      (if a ≤ t ∧ t < a + W then 1 else 0) + countWindow a W l := by
  unfold countWindow
  by_cases h1 : a ≤ t
  · by_cases h2 : t < a + W
    · simp [List.filter_cons, h1, h2, Nat.add_comm]
    · simp [List.filter_cons, h1, h2]
  · simp [List.filter_cons, h1]

theorem filter_le_cons_length (a t : Nat) (l : List Nat) :
    (List.filter (fun g => a ≤ g) (t :: l)).length =
      (if a ≤ t then 1 else 0) + (List.filter (fun g => a ≤ g) l).length := by
  by_cases h : a ≤ t <;> simp [List.filter_cons, h, Nat.add_comm]

theorem grants_window_aux (K W : Nat) :
    ∀ (ts : List Nat), List.Sorted (· ≤ ·) ts →
      ∀ (s : List Nat), s.length ≤ K → ∀ a,
        countWindow a W (grantsAux K W s ts) +
          (s.filter (fun g => a ≤ g)).length ≤ K := by
  intro ts
  induction ts with
  | nil =>
    intro _ s hs a
    have := List.length_filter_le (fun g => decide (a ≤ g)) s
    unfold countWindow grantsAux
    simp only [List.filter_nil, List.length_nil, Nat.zero_add]
    omega
  | cons t ts ih =>
    intro hsorted s hs a
    obtain ⟨hts, hsort'⟩ := List.sorted_cons.mp hsorted
    have hactlen : (s.filter (fun g => t < g + W)).length ≤ s.length :=
      List.length_filter_le _ _
    have hfl := List.length_filter_le (fun g => decide (a ≤ g)) s
    rw [grantsAux_cons]
    by_cases hc : (s.filter (fun g => t < g + W)).length < K
    · rw [if_pos hc, countWindow_cons]
      have hIH := ih hsort' (t :: s.filter (fun g => t < g + W))
        (by simpa using hc) a
      rw [filter_le_cons_length] at hIH
      by_cases h1 : t < a + W
      · have heq : ((s.filter (fun g => t < g + W)).filter
            (fun g => a ≤ g)).length = (s.filter (fun g => a ≤ g)).length := by
          rw [filter_window_sub s a t W h1]
        rw [heq] at hIH
        by_cases h2 : a ≤ t
        · rw [if_pos ⟨h2, h1⟩]
          rw [if_pos h2] at hIH
          omega
        · rw [if_neg (fun hcontra => h2 hcontra.1)]
          rw [if_neg h2] at hIH
          omega
      · -- a + W ≤ t: no grant from this point on lands inside the window
        have hlate : a + W ≤ t := Nat.le_of_not_lt h1
        have hzero : countWindow a W
            (grantsAux K W (t :: s.filter (fun g => t < g + W)) ts) = 0 :=
          countWindow_eq_zero_of_late a W t _ hlate
            (fun g hg => hts g (grantsAux_mem K W ts _ g hg))
        rw [if_neg (fun hcontra => h1 hcontra.2), hzero]
        omega
    · rw [if_neg hc]
      have hIH := ih hsort' (s.filter (fun g => t < g + W))
        (le_trans hactlen hs) a
      by_cases h1 : t < a + W
      · have heq : ((s.filter (fun g => t < g + W)).filter
            (fun g => a ≤ g)).length = (s.filter (fun g => a ≤ g)).length := by
          rw [filter_window_sub s a t W h1]
        rw [heq] at hIH
        omega
      · have hlate : a + W ≤ t := Nat.le_of_not_lt h1
        have hzero : countWindow a W
            (grantsAux K W (s.filter (fun g => t < g + W)) ts) = 0 :=
          countWindow_eq_zero_of_late a W t _ hlate
            (fun g hg => hts g (grantsAux_mem K W ts _ g hg))
        rw [hzero]
        omega

/-- C4. Under any serialized trace of concurrent acquire attempts at
nondecreasing times, the rate limiter never grants more than K
acquisitions inside any rolling window of length W = 30 seconds, with
K = 5 when no API key is configured and K = 50 with a key. -/
theorem rate_limiter_window_bound (hasApiKey : Bool) (times : List Nat)
    (hmono : List.Sorted (· ≤ ·) times) (a : Nat) :
    countWindow a rateLimitW (rateLimiterGrants hasApiKey times) ≤
      rateLimitK hasApiKey := by
  have h := grants_window_aux (rateLimitK hasApiKey) rateLimitW times hmono []
    (Nat.zero_le _) a
  simpa using h

/-- Concrete instance of `rate_limiter_window_bound`: seven simultaneous
attempts without an API key yield exactly five grants in the first
30-second window, within the bound. -/
theorem rate_limiter_window_bound_witness :
    countWindow 0 rateLimitW (rateLimiterGrants false [0, 0, 0, 0, 0, 0, 0]) = 5 ∧
    countWindow 0 rateLimitW (rateLimiterGrants false [0, 0, 0, 0, 0, 0, 0]) ≤
      rateLimitK false :=
  ⟨by decide,
   rate_limiter_window_bound false [0, 0, 0, 0, 0, 0, 0] (by decide) 0⟩

end DepHealth
